import Mathlib

/-!
A shallow embedding of the CHIP-8 interpreter in `src/chip8.rs` of the
`chip_8_emulator` repository, together with theorems settling the frozen
claims about its specification.

Modelling conventions:
* The machine state `CHIP8` mirrors the Rust struct field by field; the
  window handle, the debug flag and the display tint are pure I/O
  presentation state with no role in the interpreter semantics and are
  omitted.  A `rand_byte` field models the byte drawn from the OS entropy
  source by `rand::random::<u8>()`.
* Fixed-size arrays (`[u8; 16]`, `[u8; 4096]`, `[u16; 16]`, `[bool; 16]`,
  `[[bool; 64]; 32]`) are modelled as total functions out of `Nat`; every
  write the interpreter performs stays at an in-range index unless noted,
  and where the Rust indexing operation can go out of range and abort the
  model returns `Except.error EmuErr.indexOutOfBounds`.
* Machine integers are `Nat` with wraparound written explicitly
  (`% 256` for `u8`, `% 65536` for `u16`), i.e. the release-profile
  semantics of Rust integer arithmetic; overflow-checked (debug) builds
  instead abort on the same inputs, which is noted where it matters.
* Rust source aborts (`Stack overflow!`, `Stack underflow!`, the
  `unimplemented!` arms of the opcode dispatch, and out-of-range indexing)
  are modelled as the distinguishable values of `EmuErr`.
-/

/-- The distinguishable ways a single interpreter step can abort. -/
inductive EmuErr where
  /-- The explicit `Stack overflow!` abort in `call`. -/
  | stackOverflowPanic
  /-- The explicit `Stack underflow!` abort in `ret`. -/
  | stackUnderflowPanic
  /-- An out-of-range array index abort raised by the Rust runtime. -/
  | indexOutOfBounds
  /-- The `unimplemented!` abort for an opcode no dispatch arm matches. -/
  | invalidOpcode
  deriving DecidableEq, Repr

/-- The `CHIP8` machine state (struct `CHIP8` in `src/chip8.rs`), with the
window/debug/color presentation fields omitted and a `rand_byte` oracle for
the OS entropy consumed by the `rand` instruction. -/
structure CHIP8 where
  registers : Nat → Nat
  i : Nat
  position_in_memory : Nat
  memory : Nat → Nat
  stack : Nat → Nat
  stack_pointer : Nat
  keys : Nat → Bool
  delay_timer : Nat
  sound_timer : Nat
  display : Nat → Nat → Bool
  draw_flag : Bool
  rand_byte : Nat

/-- The flag-register index: `const VF: usize = 0x0f`. -/
def VF : Nat := 0x0f

/-- `clear_screen`: `self.display = [[false; 64]; 32]`. -/
def clear_screen (s : CHIP8) : CHIP8 :=
  { s with display := fun _ _ => false }

/-- `goto`: `self.position_in_memory = addr as usize`. -/
def goto (s : CHIP8) (addr : Nat) : CHIP8 :=
  { s with position_in_memory := addr }

/-- `call`: the source first aborts with `Stack overflow!` when
`sp > stack.len()` (i.e. `sp > 16`), then writes `stack[sp]`, which the Rust
runtime aborts on (index out of range) when `sp = 16`, then increments the
stack pointer and jumps.  The pushed return address is
`self.position_in_memory as u16`, hence the `% 65536`. -/
def call (s : CHIP8) (addr : Nat) : Except EmuErr CHIP8 :=
  if s.stack_pointer > 16 then .error .stackOverflowPanic
  else if s.stack_pointer < 16 then
    .ok { s with
            stack := Function.update s.stack s.stack_pointer
              (s.position_in_memory % 65536),
            stack_pointer := s.stack_pointer + 1,
            position_in_memory := addr }
  else .error .indexOutOfBounds

/-- `ret`: aborts with `Stack underflow!` when the stack pointer is zero,
otherwise decrements it and restores the program counter from the stack. -/
def ret (s : CHIP8) : Except EmuErr CHIP8 :=
  if s.stack_pointer = 0 then .error .stackUnderflowPanic
  else .ok { s with
               stack_pointer := s.stack_pointer - 1,
               position_in_memory := s.stack (s.stack_pointer - 1) }

/-- `skip_if_equal`: `if registers[x] == nn { position_in_memory += 2 }`. -/
def skip_if_equal (s : CHIP8) (x nn : Nat) : CHIP8 :=
  if s.registers x = nn
  then { s with position_in_memory := s.position_in_memory + 2 } else s

/-- `skip_if_not_equal`: `if registers[x] != nn { position_in_memory += 2 }`. -/
def skip_if_not_equal (s : CHIP8) (x nn : Nat) : CHIP8 :=
  if s.registers x ≠ nn
  then { s with position_in_memory := s.position_in_memory + 2 } else s

/-- `skip_xy_equal`: `if registers[x] == registers[y] { position_in_memory += 2 }`. -/
def skip_xy_equal (s : CHIP8) (x y : Nat) : CHIP8 :=
  if s.registers x = s.registers y
  then { s with position_in_memory := s.position_in_memory + 2 } else s

/-- `set_xnn`: `registers[x] = nn`. -/
def set_xnn (s : CHIP8) (x nn : Nat) : CHIP8 :=
  { s with registers := Function.update s.registers x nn }

/-- `add_xnn`: `registers[x] = (registers[x] as u16 + nn as u16) as u8`;
the widened sum of two bytes cannot exceed `u16`, and the closing `as u8`
cast truncates modulo 256. -/
def add_xnn (s : CHIP8) (x nn : Nat) : CHIP8 :=
  { s with registers := Function.update s.registers x ((s.registers x + nn) % 256) }

/-- `assign_xy`: `registers[x] = registers[y]`. -/
def assign_xy (s : CHIP8) (x y : Nat) : CHIP8 :=
  { s with registers := Function.update s.registers x (s.registers y) }

/-- `or_xy`: `registers[x] |= registers[y]`. -/
def or_xy (s : CHIP8) (x y : Nat) : CHIP8 :=
  { s with registers := Function.update s.registers x
                          (Nat.lor (s.registers x) (s.registers y)) }

/-- `and_xy`: `registers[x] &= registers[y]`. -/
def and_xy (s : CHIP8) (x y : Nat) : CHIP8 :=
  { s with registers := Function.update s.registers x
                          (Nat.land (s.registers x) (s.registers y)) }

/-- `xor_xy`: `registers[x] ^= registers[y]`. -/
def xor_xy (s : CHIP8) (x y : Nat) : CHIP8 :=
  { s with registers := Function.update s.registers x
                          (Nat.xor (s.registers x) (s.registers y)) }

/-- `add_xy` (opcode `0x8XY4`): widens both register operands to `u16`,
adds, writes the carry of the sum to `self.memory[VF]` — the MEMORY byte at
index 15, not the flag register — and stores the truncated sum in the
destination register. -/
def add_xy (s : CHIP8) (x y : Nat) : CHIP8 :=
  let vx := s.registers x
  let vy := s.registers y
  let result := vx + vy
  { s with
      memory := Function.update s.memory VF (if result > 0xFF then 1 else 0),
      registers := Function.update s.registers x (result % 256) }

/-- `sub_xy` (opcode `0x8XY5`): compares `self.memory[x]` with
`self.memory[y]` — the MEMORY bytes at the register indices, not the
registers — writes the resulting borrow flag to `self.memory[VF]`, and then
performs `registers[x] -= registers[y]`.  The bare `-=` wraps modulo 256 in
release builds (overflow-checked builds abort on underflow instead). -/
def sub_xy (s : CHIP8) (x y : Nat) : CHIP8 :=
  let s1 := { s with
                memory := Function.update s.memory VF
                  (if s.memory x > s.memory y then 1 else 0) }
  { s1 with registers := Function.update s1.registers x
                           ((s1.registers x + 256 - s1.registers y % 256) % 256) }

/-- `shift_right` (opcode `0x8XY6`): writes `self.memory[x] & 1` — the low
bit of the MEMORY byte at index `x`, not of the register — to
`self.memory[VF]`, then halves the register. -/
def shift_right (s : CHIP8) (x : Nat) : CHIP8 :=
  { s with
      memory := Function.update s.memory VF (Nat.land (s.memory x) 1),
      registers := Function.update s.registers x (s.registers x / 2) }

/-- `sub_yx` (opcode `0x8XY7`): writes the borrow flag (computed from the
registers this time) to `self.memory[VF]`, and stores
`registers[y].wrapping_sub(registers[x])` in the destination. -/
def sub_yx (s : CHIP8) (x y : Nat) : CHIP8 :=
  { s with
      memory := Function.update s.memory VF
        (if s.registers y > s.registers x then 1 else 0),
      registers := Function.update s.registers x
        ((s.registers y + 256 - s.registers x % 256) % 256) }

/-- `shift_left` (opcode `0x8XYE`): writes bit 7 of `self.memory[x]` — the
MEMORY byte at index `x`, not the register — to `self.memory[VF]`, then
doubles the register (a `u8` left shift by one drops the high bit). -/
def shift_left (s : CHIP8) (x : Nat) : CHIP8 :=
  { s with
      memory := Function.update s.memory VF
        (Nat.land (s.memory x) 0b10000000 >>> 7),
      registers := Function.update s.registers x (s.registers x * 2 % 256) }

/-- `skip_xy_not_equal`: `if registers[x] != registers[y] { position_in_memory += 2 }`. -/
def skip_xy_not_equal (s : CHIP8) (x y : Nat) : CHIP8 :=
  if s.registers x ≠ s.registers y
  then { s with position_in_memory := s.position_in_memory + 2 } else s

/-- `set_16bit_register`: `self.i = addr`. -/
def set_16bit_register (s : CHIP8) (addr : Nat) : CHIP8 :=
  { s with i := addr }

/-- `jump_nnn_plus_v0`: `position_in_memory = (registers[0] as u16 + addr) as usize`;
the `u16` sum of a byte and a 12-bit address cannot wrap, but the cast is
kept explicit. -/
def jump_nnn_plus_v0 (s : CHIP8) (addr : Nat) : CHIP8 :=
  { s with position_in_memory := (s.registers 0 + addr) % 65536 }

/-- `rand`: `registers[x] = rand::random::<u8>() & nn`, with the random
byte supplied by the `rand_byte` oracle field. -/
def rand (s : CHIP8) (x nn : Nat) : CHIP8 :=
  { s with registers := Function.update s.registers x
                          (Nat.land (s.rand_byte % 256) nn) }

/-- The sprite bit tested by `draw` at column `col` of a row byte:
`(row & 0x80 >> col) > 0` (in Rust `>>` binds tighter than `&`). -/
def spriteBit (row col : Nat) : Bool :=
  Nat.land row (0x80 >>> col) > 0

/-- A two-dimensional pointwise update of the display grid. -/
def updateDisplay (d : Nat → Nat → Bool) (r c : Nat) (v : Bool) : Nat → Nat → Bool :=
  fun r2 c2 => if r2 = r ∧ c2 = c then v else d r2 c2

/-- One iteration of the inner column loop of `draw`: computes the sprite
bit `val`, the wrapped screen column (`vx + col` is a wrapping `u8` sum,
then `% 64`), sets the collision byte `self.memory[VF]` to 1 when
`val & display[y][x] != display[y][x]`, and XORs the pixel with `val`. -/
def draw_col_step (vx row screen_y : Nat) (st : CHIP8) (col : Nat) : CHIP8 :=
  let val := spriteBit row col
  let screen_x := (vx + col) % 256 % 64
  let st1 := if ((val && st.display screen_y screen_x) ≠ st.display screen_y screen_x)
             then { st with memory := Function.update st.memory VF 1 } else st
  { st1 with display := updateDisplay st1.display screen_y screen_x
               (xor (st1.display screen_y screen_x) val) }

/-- The inner `for col in 0..c` loop of `draw`, columns processed in
ascending order. -/
def draw_cols (vx row screen_y : Nat) (st : CHIP8) : Nat → CHIP8
  | 0 => st
  | c + 1 => draw_col_step vx row screen_y (draw_cols vx row screen_y st c) c

/-- One iteration of the outer row loop of `draw`: reads the sprite row
byte at `self.memory[(self.i + r as u16) as usize]` (a `u16` sum, and an
index the Rust runtime aborts on when it reaches past the 4096-byte
memory), computes the wrapped screen row, and runs the column loop. -/
def draw_row_step (vx vy : Nat) (st : CHIP8) (r : Nat) : Except EmuErr CHIP8 :=
  let idx := (st.i + r) % 65536
  if idx < 4096 then
    .ok (draw_cols vx (st.memory idx) ((vy + r) % 256 % 32) st 8)
  else .error .indexOutOfBounds

/-- The outer `for r in 0..n` loop of `draw`, rows processed in ascending
order. -/
def draw_rows (vx vy : Nat) (st : CHIP8) : Nat → Except EmuErr CHIP8
  | 0 => .ok st
  | r + 1 => (draw_rows vx vy st r).bind (fun st2 => draw_row_step vx vy st2 r)

/-- `draw` (opcode `0xDXYN`): reads the two coordinate registers, zeroes
the collision byte `self.memory[VF]` (the MEMORY byte, as in the arithmetic
instructions), blits `n` sprite rows and raises the draw flag. -/
def draw (s : CHIP8) (x y n : Nat) : Except EmuErr CHIP8 :=
  let vx := s.registers x
  let vy := s.registers y
  let s0 := { s with memory := Function.update s.memory VF 0 }
  (draw_rows vx vy s0 n).map (fun st => { st with draw_flag := true })

/-- `skip_if_key_pressed`: indexes `self.keys` by the register VALUE, which
the Rust runtime aborts on when it is 16 or more. -/
def skip_if_key_pressed (s : CHIP8) (x : Nat) : Except EmuErr CHIP8 :=
  if s.registers x < 16 then
    .ok (if s.keys (s.registers x)
         then { s with position_in_memory := s.position_in_memory + 2 } else s)
  else .error .indexOutOfBounds

/-- `skip_if_key_not_pressed`: as `skip_if_key_pressed`, negated. -/
def skip_if_key_not_pressed (s : CHIP8) (x : Nat) : Except EmuErr CHIP8 :=
  if s.registers x < 16 then
    .ok (if s.keys (s.registers x) then s
         else { s with position_in_memory := s.position_in_memory + 2 })
  else .error .indexOutOfBounds

/-- `set_x_to_delay_timer`: `registers[x] = delay_timer`. -/
def set_x_to_delay_timer (s : CHIP8) (x : Nat) : CHIP8 :=
  { s with registers := Function.update s.registers x s.delay_timer }

/-- The net effect of the scan loop in `set_x_to_keypress`:
`for (pos, &key) in keys.iter().enumerate() { if key { registers[x] = pos } }`
assigns every pressed index in ascending order, so the value left behind by
the first `k` iterations is the largest pressed index below `k`, or the
initial value `v` when none is pressed. -/
def keyScan (keys : Nat → Bool) (v : Nat) : Nat → Nat
  | 0 => v
  | k + 1 => if keys k then k else keyScan keys v k

/-- `set_x_to_keypress` (opcode `0xFX0A`): after the blocking wait (I/O,
represented by the `keys` latch already holding the state observed at
resume time), scans all 16 keys in ascending order and writes the index of
each pressed one to `registers[x]`; the value that remains is the LAST
pressed index found, i.e. the highest. -/
def set_x_to_keypress (s : CHIP8) (x : Nat) : CHIP8 :=
  { s with registers := Function.update s.registers x (keyScan s.keys (s.registers x) 16) }

/-- `set_delay_timer_to_x`: `delay_timer = registers[x]`. -/
def set_delay_timer_to_x (s : CHIP8) (x : Nat) : CHIP8 :=
  { s with delay_timer := s.registers x }

/-- `set_sound_timer_to_x`: `sound_timer = registers[x]`. -/
def set_sound_timer_to_x (s : CHIP8) (x : Nat) : CHIP8 :=
  { s with sound_timer := s.registers x }

/-- `add_ix`: `self.i += registers[x] as u16`, a wrapping `u16` sum in
release builds. -/
def add_ix (s : CHIP8) (x : Nat) : CHIP8 :=
  { s with i := (s.i + s.registers x) % 65536 }

/-- `set_i_sprite_addr_x`: `self.i = 0x50 + 5 * registers[x]`. -/
def set_i_sprite_addr_x (s : CHIP8) (x : Nat) : CHIP8 :=
  { s with i := 0x50 + 5 * s.registers x }

/-- `set_bcd`: writes the decimal digits of `registers[x]` to
`memory[i]`, `memory[i+1]`, `memory[i+2]`; the Rust runtime aborts when an
index reaches past the 4096-byte memory. -/
def set_bcd (s : CHIP8) (x : Nat) : Except EmuErr CHIP8 :=
  let vx := s.registers x
  if s.i + 2 < 4096 then
    .ok { s with memory := fun a =>
            if a = s.i then vx / 100
            else if a = s.i + 1 then vx / 10 % 10
            else if a = s.i + 2 then vx % 100 % 10
            else s.memory a }
  else .error .indexOutOfBounds

/-- `reg_dump`: copies registers `0..=x` into `memory[i..=i+x]`; the slice
bound past the 4096-byte memory makes the Rust runtime abort. -/
def reg_dump (s : CHIP8) (x : Nat) : Except EmuErr CHIP8 :=
  if s.i + x + 1 ≤ 4096 then
    .ok { s with memory := fun a =>
            if s.i ≤ a ∧ a < s.i + x + 1 then s.registers (a - s.i) else s.memory a }
  else .error .indexOutOfBounds

/-- `reg_load`: copies `memory[i..=i+x]` into registers `0..=x`; the slice
bound past the 4096-byte memory makes the Rust runtime abort. -/
def reg_load (s : CHIP8) (x : Nat) : Except EmuErr CHIP8 :=
  if s.i + x + 1 ≤ 4096 then
    .ok { s with registers := fun r =>
            if r < x + 1 then s.memory (s.i + r) else s.registers r }
  else .error .indexOutOfBounds

/-- The structured operations of the interpreter, one constructor per
dispatch arm of `emulate_cycle` (the `0x0000` arm, which only raises the
`execution_finished` flag, is `finish`). -/
inductive Instr where
  | finish
  | clearScreen
  | retOp
  | gotoOp (nnn : Nat)
  | callOp (nnn : Nat)
  | skipIfEqual (x nn : Nat)
  | skipIfNotEqual (x nn : Nat)
  | skipXYEqual (x y : Nat)
  | setXNN (x nn : Nat)
  | addXNN (x nn : Nat)
  | assignXY (x y : Nat)
  | orXY (x y : Nat)
  | andXY (x y : Nat)
  | xorXY (x y : Nat)
  | addXY (x y : Nat)
  | subXY (x y : Nat)
  | shiftRight (x : Nat)
  | subYX (x y : Nat)
  | shiftLeft (x : Nat)
  | skipXYNotEqual (x y : Nat)
  | set16BitRegister (nnn : Nat)
  | jumpNNNPlusV0 (nnn : Nat)
  | randOp (x nn : Nat)
  | drawOp (x y n : Nat)
  | skipIfKeyPressed (x : Nat)
  | skipIfKeyNotPressed (x : Nat)
  | setXToDelayTimer (x : Nat)
  | setXToKeypress (x : Nat)
  | setDelayTimerToX (x : Nat)
  | setSoundTimerToX (x : Nat)
  | addIX (x : Nat)
  | setISpriteAddrX (x : Nat)
  | setBCD (x : Nat)
  | regDump (x : Nat)
  | regLoad (x : Nat)
  deriving DecidableEq, Repr

/-- The opcode dispatch of `emulate_cycle` as a pure decoder.  The operand
fields are extracted exactly as in the source
(`x = (opcode & 0x0F00) >> 8`, `y = (opcode & 0x00F0) >> 4`,
`nn = opcode & 0x00FF`, `n = opcode & 0x000F`, `nnn = opcode & 0x0FFF`,
written inline in the equivalent division/remainder form), the ordered
`match` arms become an ordered chain of range tests, and each
`unimplemented!` arm becomes `none`.  Note the source ranges `0x5000..=0x5FF0` and
`0x9000..=0x9FF0` are plain integer ranges: every word in them dispatches
to the skip instruction regardless of its low nibble. -/
def decode (opcode : Nat) : Option Instr :=
  if opcode = 0x0000 then some .finish
  else if opcode = 0x00E0 then some .clearScreen
  else if opcode = 0x00EE then some .retOp
  else if 0x1000 ≤ opcode ∧ opcode ≤ 0x1FFF then some (.gotoOp (opcode % 4096))
  else if 0x2000 ≤ opcode ∧ opcode ≤ 0x2FFF then some (.callOp (opcode % 4096))
  else if 0x3000 ≤ opcode ∧ opcode ≤ 0x3FFF then some (.skipIfEqual (opcode / 256 % 16) (opcode % 256))
  else if 0x4000 ≤ opcode ∧ opcode ≤ 0x4FFF then some (.skipIfNotEqual (opcode / 256 % 16) (opcode % 256))
  else if 0x5000 ≤ opcode ∧ opcode ≤ 0x5FF0 then some (.skipXYEqual (opcode / 256 % 16) (opcode / 16 % 16))
  else if 0x6000 ≤ opcode ∧ opcode ≤ 0x6FFF then some (.setXNN (opcode / 256 % 16) (opcode % 256))
  else if 0x7000 ≤ opcode ∧ opcode ≤ 0x7FFF then some (.addXNN (opcode / 256 % 16) (opcode % 256))
  else if 0x8000 ≤ opcode ∧ opcode ≤ 0x8FFF then
    if (opcode % 16) = 0 then some (.assignXY (opcode / 256 % 16) (opcode / 16 % 16))
    else if (opcode % 16) = 1 then some (.orXY (opcode / 256 % 16) (opcode / 16 % 16))
    else if (opcode % 16) = 2 then some (.andXY (opcode / 256 % 16) (opcode / 16 % 16))
    else if (opcode % 16) = 3 then some (.xorXY (opcode / 256 % 16) (opcode / 16 % 16))
    else if (opcode % 16) = 4 then some (.addXY (opcode / 256 % 16) (opcode / 16 % 16))
    else if (opcode % 16) = 5 then some (.subXY (opcode / 256 % 16) (opcode / 16 % 16))
    else if (opcode % 16) = 6 then some (.shiftRight (opcode / 256 % 16))
    else if (opcode % 16) = 7 then some (.subYX (opcode / 256 % 16) (opcode / 16 % 16))
    else if (opcode % 16) = 14 then some (.shiftLeft (opcode / 256 % 16))
    else none
  else if 0x9000 ≤ opcode ∧ opcode ≤ 0x9FF0 then some (.skipXYNotEqual (opcode / 256 % 16) (opcode / 16 % 16))
  else if 0xA000 ≤ opcode ∧ opcode ≤ 0xAFFF then some (.set16BitRegister (opcode % 4096))
  else if 0xB000 ≤ opcode ∧ opcode ≤ 0xBFFF then some (.jumpNNNPlusV0 (opcode % 4096))
  else if 0xC000 ≤ opcode ∧ opcode ≤ 0xCFFF then some (.randOp (opcode / 256 % 16) (opcode % 256))
  else if 0xD000 ≤ opcode ∧ opcode ≤ 0xDFFF then some (.drawOp (opcode / 256 % 16) (opcode / 16 % 16) (opcode % 16))
  else if 0xE000 ≤ opcode ∧ opcode ≤ 0xEFFF then
    if (opcode % 256) = 0x9E then some (.skipIfKeyPressed (opcode / 256 % 16))
    else if (opcode % 256) = 0xA1 then some (.skipIfKeyNotPressed (opcode / 256 % 16))
    else none
  else if 0xF000 ≤ opcode ∧ opcode ≤ 0xFFFF then
    if (opcode % 256) = 0x07 then some (.setXToDelayTimer (opcode / 256 % 16))
    else if (opcode % 256) = 0x0A then some (.setXToKeypress (opcode / 256 % 16))
    else if (opcode % 256) = 0x15 then some (.setDelayTimerToX (opcode / 256 % 16))
    else if (opcode % 256) = 0x18 then some (.setSoundTimerToX (opcode / 256 % 16))
    else if (opcode % 256) = 0x1E then some (.addIX (opcode / 256 % 16))
    else if (opcode % 256) = 0x29 then some (.setISpriteAddrX (opcode / 256 % 16))
    else if (opcode % 256) = 0x33 then some (.setBCD (opcode / 256 % 16))
    else if (opcode % 256) = 0x55 then some (.regDump (opcode / 256 % 16))
    else if (opcode % 256) = 0x65 then some (.regLoad (opcode / 256 % 16))
    else none
  else none

/-- Applies one decoded operation to the machine state (the effect part of
the dispatch in `emulate_cycle`). -/
def execute (s : CHIP8) : Instr → Except EmuErr CHIP8
  | .finish => .ok s
  | .clearScreen => .ok (clear_screen s)
  | .retOp => ret s
  | .gotoOp nnn => .ok (goto s nnn)
  | .callOp nnn => call s nnn
  | .skipIfEqual x nn => .ok (skip_if_equal s x nn)
  | .skipIfNotEqual x nn => .ok (skip_if_not_equal s x nn)
  | .skipXYEqual x y => .ok (skip_xy_equal s x y)
  | .setXNN x nn => .ok (set_xnn s x nn)
  | .addXNN x nn => .ok (add_xnn s x nn)
  | .assignXY x y => .ok (assign_xy s x y)
  | .orXY x y => .ok (or_xy s x y)
  | .andXY x y => .ok (and_xy s x y)
  | .xorXY x y => .ok (xor_xy s x y)
  | .addXY x y => .ok (add_xy s x y)
  | .subXY x y => .ok (sub_xy s x y)
  | .shiftRight x => .ok (shift_right s x)
  | .subYX x y => .ok (sub_yx s x y)
  | .shiftLeft x => .ok (shift_left s x)
  | .skipXYNotEqual x y => .ok (skip_xy_not_equal s x y)
  | .set16BitRegister nnn => .ok (set_16bit_register s nnn)
  | .jumpNNNPlusV0 nnn => .ok (jump_nnn_plus_v0 s nnn)
  | .randOp x nn => .ok (rand s x nn)
  | .drawOp x y n => draw s x y n
  | .skipIfKeyPressed x => skip_if_key_pressed s x
  | .skipIfKeyNotPressed x => skip_if_key_not_pressed s x
  | .setXToDelayTimer x => .ok (set_x_to_delay_timer s x)
  | .setXToKeypress x => .ok (set_x_to_keypress s x)
  | .setDelayTimerToX x => .ok (set_delay_timer_to_x s x)
  | .setSoundTimerToX x => .ok (set_sound_timer_to_x s x)
  | .addIX x => .ok (add_ix s x)
  | .setISpriteAddrX x => .ok (set_i_sprite_addr_x s x)
  | .setBCD x => set_bcd s x
  | .regDump x => reg_dump s x
  | .regLoad x => reg_load s x

/-- `emulate_cycle`: fetches the big-endian 16-bit word at the program
counter (two indexed reads the Rust runtime aborts on when out of range),
advances the program counter by 2, decodes, and dispatches; the returned
flag is the source's `execution_finished`, raised only by opcode
`0x0000`. -/
def emulate_cycle (s : CHIP8) : Except EmuErr (CHIP8 × Bool) :=
  if s.position_in_memory < 4096 then
    if s.position_in_memory + 1 < 4096 then
      match decode (s.memory s.position_in_memory <<< 8 |||
                    s.memory (s.position_in_memory + 1)) with
      | none => .error .invalidOpcode
      | some .finish =>
          .ok ({ s with position_in_memory := s.position_in_memory + 2 }, true)
      | some ins =>
          (execute { s with position_in_memory := s.position_in_memory + 2 } ins).map
            (fun t => (t, false))
    else .error .indexOutOfBounds
  else .error .indexOutOfBounds

/-- A machine state as `CHIP8::new()` produces it (all registers, memory,
stack, keys, display and timers zeroed; the program counter at the load
origin `0x200`). -/
def zeroState : CHIP8 where
  registers := fun _ => 0
  i := 0
  position_in_memory := 0x200
  memory := fun _ => 0
  stack := fun _ => 0
  stack_pointer := 0
  keys := fun _ => false
  delay_timer := 0
  sound_timer := 0
  display := fun _ _ => false
  draw_flag := false
  rand_byte := 0

/-- A state with V0 = 200 and V1 = 100, whose sum carries. -/
def exC1 : CHIP8 :=
  { zeroState with registers := fun k => if k = 0 then 200 else if k = 1 then 100 else 0 }

/-- Claim C1: on Vx = 200, Vy = 100 the add-with-carry operation leaves the
flag register (register 15) at 0 and writes the carry 1 to the general
MEMORY byte at index 15 instead; the destination register does receive
(200 + 100) mod 256 = 44.  The code writes `self.memory[VF]`, not
`self.registers[VF]`, contradicting the claim and the specification's rule
that the flag is never aliased onto general memory. -/
theorem add_xy_carry_aliased_to_memory :
    exC1.registers 0 = 200 ∧ exC1.registers 1 = 100 ∧
    (add_xy exC1 0 1).registers 0 = 44 ∧
    (add_xy exC1 0 1).registers 15 = 0 ∧
    (add_xy exC1 0 1).memory 15 = 1 := by
  decide

/-- A state with V0 = 5 and V1 = 3 and all memory zero. -/
def exC2 : CHIP8 :=
  { zeroState with registers := fun k => if k = 0 then 5 else if k = 1 then 3 else 0 }

/-- Claim C2: on Vx = 5, Vy = 3 the register subtract operation computes
the right difference 2 but leaves the flag register (register 15) at 0 —
the claim requires VF = 1 since 5 > 3.  The code compares the MEMORY bytes
at indices `x` and `y` (both 0 here) and writes the resulting 0 to the
MEMORY byte at index 15, never touching register 15. -/
theorem sub_xy_flag_aliased_and_miscomputed :
    exC2.registers 0 = 5 ∧ exC2.registers 1 = 3 ∧
    (sub_xy exC2 0 1).registers 0 = 2 ∧
    (sub_xy exC2 0 1).registers 15 = 0 ∧
    (sub_xy exC2 0 1).memory 15 = 0 := by
  decide

/-- A state with V0 = 3 (low bit set) and all memory zero. -/
def exC3 : CHIP8 :=
  { zeroState with registers := fun k => if k = 0 then 3 else 0 }

/-- A state with V0 = 128 (high bit set) and all memory zero. -/
def exC3L : CHIP8 :=
  { zeroState with registers := fun k => if k = 0 then 128 else 0 }

/-- Claim C3: shift-right on V0 = 3 must set VF (register 15) to the
pre-shift low bit 1, and shift-left on V0 = 128 must set VF to the
pre-shift high bit 1; the code instead reads the bit from the MEMORY byte
at index `x` (0 here) and writes it to the MEMORY byte at index 15, so
register 15 stays 0 and even the aliased memory flag is 0.  The shifted
register values themselves are correct. -/
theorem shift_flag_aliased_to_memory :
    exC3.registers 0 = 3 ∧
    (shift_right exC3 0).registers 0 = 1 ∧
    (shift_right exC3 0).registers 15 = 0 ∧
    (shift_right exC3 0).memory 15 = 0 ∧
    exC3L.registers 0 = 128 ∧
    (shift_left exC3L 0).registers 0 = 0 ∧
    (shift_left exC3L 0).registers 15 = 0 ∧
    (shift_left exC3L 0).memory 15 = 0 := by
  decide

/-- A state whose call stack already holds 16 return addresses. -/
def exC7 : CHIP8 := { zeroState with stack_pointer := 16 }

/-- Claim C7: with 16 return addresses on the stack a further call does NOT
raise the distinguishable stack-overflow abort: the guard in `call` tests
`sp > stack.len()` instead of `sp >= stack.len()`, so execution reaches the
out-of-range write `stack[16]` and dies as an index-out-of-bounds abort.
Returning with an empty stack does raise the distinguishable underflow. -/
theorem call_overflow_is_oob_and_ret_underflow :
    call exC7 0x300 = .error .indexOutOfBounds ∧
    EmuErr.indexOutOfBounds ≠ EmuErr.stackOverflowPanic ∧
    ret zeroState = .error .stackUnderflowPanic := by
  refine ⟨rfl, by decide, rfl⟩

/-- Claim C9 counterexample: with x = 15 the add-immediate destination IS
the flag register, so `add_xnn` does modify VF: adding 1 to V15 = 0 leaves
V15 = 1. -/
theorem add_xnn_modifies_vf_when_x_is_15 :
    zeroState.registers 15 = 0 ∧ (add_xnn zeroState 15 1).registers 15 = 1 := by
  decide

/-- Claim C9 (amended): add-immediate stores the 8-bit wrapping sum
(a + nn) mod 256 in the destination register and modifies no other
register; in particular VF (register 15) is unchanged whenever it is not
itself the destination (x ≠ 15). -/
theorem add_xnn_wraps_and_touches_only_x (s : CHIP8) (x nn : Nat) :
    (add_xnn s x nn).registers x = (s.registers x + nn) % 256 ∧
    ∀ j, j ≠ x → (add_xnn s x nn).registers j = s.registers j := by
  constructor
  · simp [add_xnn]
  · intro j hj
    simp [add_xnn, Function.update_noteq hj]

/-- Claim C9 witness: the amended theorem at V0 = 0, nn = 5 in the fresh
state; V15 is untouched. -/
theorem add_xnn_wraps_witness :
    (add_xnn zeroState 0 5).registers 0 = (zeroState.registers 0 + 5) % 256 ∧
    (add_xnn zeroState 0 5).registers 15 = zeroState.registers 15 :=
  ⟨(add_xnn_wraps_and_touches_only_x zeroState 0 5).1,
   (add_xnn_wraps_and_touches_only_x zeroState 0 5).2 15 (by decide)⟩

/-- Claim C10: each of the four skip operations modifies at most the
program counter: the register file, memory, display, call stack, stack
pointer, index register, key latch and both timers are all unchanged. -/
theorem skip_ops_touch_only_pc (s : CHIP8) (x nn y : Nat) :
    ((skip_if_equal s x nn).registers = s.registers ∧
     (skip_if_equal s x nn).memory = s.memory ∧
     (skip_if_equal s x nn).display = s.display ∧
     (skip_if_equal s x nn).stack = s.stack ∧
     (skip_if_equal s x nn).stack_pointer = s.stack_pointer ∧
     (skip_if_equal s x nn).i = s.i ∧
     (skip_if_equal s x nn).keys = s.keys ∧
     (skip_if_equal s x nn).delay_timer = s.delay_timer ∧
     (skip_if_equal s x nn).sound_timer = s.sound_timer) ∧
    ((skip_if_not_equal s x nn).registers = s.registers ∧
     (skip_if_not_equal s x nn).memory = s.memory ∧
     (skip_if_not_equal s x nn).display = s.display ∧
     (skip_if_not_equal s x nn).stack = s.stack ∧
     (skip_if_not_equal s x nn).stack_pointer = s.stack_pointer ∧
     (skip_if_not_equal s x nn).i = s.i ∧
     (skip_if_not_equal s x nn).keys = s.keys ∧
     (skip_if_not_equal s x nn).delay_timer = s.delay_timer ∧
     (skip_if_not_equal s x nn).sound_timer = s.sound_timer) ∧
    ((skip_xy_equal s x y).registers = s.registers ∧
     (skip_xy_equal s x y).memory = s.memory ∧
     (skip_xy_equal s x y).display = s.display ∧
     (skip_xy_equal s x y).stack = s.stack ∧
     (skip_xy_equal s x y).stack_pointer = s.stack_pointer ∧
     (skip_xy_equal s x y).i = s.i ∧
     (skip_xy_equal s x y).keys = s.keys ∧
     (skip_xy_equal s x y).delay_timer = s.delay_timer ∧
     (skip_xy_equal s x y).sound_timer = s.sound_timer) ∧
    ((skip_xy_not_equal s x y).registers = s.registers ∧
     (skip_xy_not_equal s x y).memory = s.memory ∧
     (skip_xy_not_equal s x y).display = s.display ∧
     (skip_xy_not_equal s x y).stack = s.stack ∧
     (skip_xy_not_equal s x y).stack_pointer = s.stack_pointer ∧
     (skip_xy_not_equal s x y).i = s.i ∧
     (skip_xy_not_equal s x y).keys = s.keys ∧
     (skip_xy_not_equal s x y).delay_timer = s.delay_timer ∧
     (skip_xy_not_equal s x y).sound_timer = s.sound_timer) := by
  refine ⟨?_, ?_, ?_, ?_⟩
  · unfold skip_if_equal
    split <;> exact ⟨rfl, rfl, rfl, rfl, rfl, rfl, rfl, rfl, rfl⟩
  · unfold skip_if_not_equal
    split <;> exact ⟨rfl, rfl, rfl, rfl, rfl, rfl, rfl, rfl, rfl⟩
  · unfold skip_xy_equal
    split <;> exact ⟨rfl, rfl, rfl, rfl, rfl, rfl, rfl, rfl, rfl⟩
  · unfold skip_xy_not_equal
    split <;> exact ⟨rfl, rfl, rfl, rfl, rfl, rfl, rfl, rfl, rfl⟩

/-- A state in which keys 1 and 2 are both pressed. -/
def exC5 : CHIP8 := { zeroState with keys := fun k => k == 1 || k == 2 }

/-- Claim C5 counterexample: with keys 1 and 2 both pressed, the key-read
scan leaves register V0 = 2, the HIGHEST pressed index — not 1, the lowest
pressed index the claim demands. -/
theorem set_x_to_keypress_picks_highest_not_lowest :
    exC5.keys 1 = true ∧ exC5.keys 2 = true ∧
    (set_x_to_keypress exC5 0).registers 0 = 2 ∧
    (set_x_to_keypress exC5 0).registers 0 ≠ 1 := by
  decide

/-- The scan loop of `set_x_to_keypress` returns the greatest pressed key
index below the bound (the last one assigned in ascending order), as long
as some key below the bound is pressed. -/
theorem keyScan_greatest (keys : Nat → Bool) (v : Nat) :
    ∀ k, (∃ j, j < k ∧ keys j = true) →
      keys (keyScan keys v k) = true ∧ keyScan keys v k < k ∧
      ∀ j, j < k → keys j = true → j ≤ keyScan keys v k := by
  intro k
  induction k with
  | zero =>
      rintro ⟨j, hj, _⟩
      exact absurd hj (Nat.not_lt_zero j)
  | succ k ih =>
      rintro ⟨j, hj, hkey⟩
      by_cases hk : keys k = true
      · have hsc : keyScan keys v (k + 1) = k := by
          simp [keyScan, hk]
        refine ⟨by rw [hsc]; exact hk, by rw [hsc]; omega, ?_⟩
        intro j2 hj2 _
        rw [hsc]
        omega
      · have hj' : j < k := by
          rcases Nat.lt_or_eq_of_le (Nat.lt_succ_iff.mp hj) with h | h
          · exact h
          · exact absurd (h ▸ hkey) hk
        obtain ⟨h1, h2, h3⟩ := ih ⟨j, hj', hkey⟩
        have hsc : keyScan keys v (k + 1) = keyScan keys v k := by
          simp [keyScan, hk]
        refine ⟨by rw [hsc]; exact h1, by rw [hsc]; omega, ?_⟩
        intro j2 hj2 hkey2
        have hj2' : j2 < k := by
          rcases Nat.lt_or_eq_of_le (Nat.lt_succ_iff.mp hj2) with h | h
          · exact h
          · exact absurd (h ▸ hkey2) hk
        rw [hsc]
        exact h3 j2 hj2' hkey2

/-- Claim C5 (amended): when the blocking key-read resumes with at least
one key pressed, the destination register receives a pressed key index, and
it is the LAST pressed index found scanning keys 0 through 15 in ascending
order — the highest pressed index wins when several are pressed. -/
theorem set_x_to_keypress_highest_pressed (s : CHIP8) (x : Nat)
    (h : ∃ j, j < 16 ∧ s.keys j = true) :
    s.keys ((set_x_to_keypress s x).registers x) = true ∧
    (set_x_to_keypress s x).registers x < 16 ∧
    ∀ j, j < 16 → s.keys j = true → j ≤ (set_x_to_keypress s x).registers x := by
  have hval : (set_x_to_keypress s x).registers x = keyScan s.keys (s.registers x) 16 := by
    simp [set_x_to_keypress]
  rw [hval]
  exact keyScan_greatest s.keys (s.registers x) 16 h

/-- Claim C5 witness: the amended theorem at the concrete state with keys 1
and 2 pressed. -/
theorem set_x_to_keypress_highest_witness :
    exC5.keys ((set_x_to_keypress exC5 0).registers 0) = true ∧
    (set_x_to_keypress exC5 0).registers 0 < 16 ∧
    ∀ j, j < 16 → exC5.keys j = true → j ≤ (set_x_to_keypress exC5 0).registers 0 :=
  set_x_to_keypress_highest_pressed exC5 0 ⟨1, by decide, by decide⟩


/-- Claim C6 counterexample: the word `0x5011` has a nonzero low nibble in
the `0x5` opcode family, which the claim says must be reported as an
invalid-instruction error; the dispatch range `0x5000..=0x5FF0` nevertheless
matches it, so it decodes to (and is silently executed as) the
skip-if-registers-equal instruction with x = 0, y = 1. -/
theorem decode_5011_executed_as_skip :
    decode 0x5011 = some (Instr.skipXYEqual 0 1) ∧ decode 0x5011 ≠ none := by
  decide

/-- The set of instruction words no dispatch arm of `emulate_cycle`
matches, written out family by family as the amended claim states it: the
`0x0` family except the three recognized words, the `0x8` family with low
nibble outside 0-7 and 14, the `0xE` family with low byte outside
{0x9E, 0xA1}, the `0xF` family with low byte outside the nine handled
values, and the tails `0x5FF1`-`0x5FFF` and `0x9FF1`-`0x9FFF` left uncovered
by the two skip ranges; every other word (in particular any word of the
`0x5`/`0x9` families at or below `0x5FF0`/`0x9FF0`, whatever its low
nibble) is matched by some arm. -/
def invalidWordSpec (opcode : Nat) : Bool :=
  if (opcode / 4096) = 0x0 then decide (¬(opcode = 0x0000 ∨ opcode = 0x00E0 ∨ opcode = 0x00EE))
  else if (opcode / 4096) = 0x5 then decide (0x5FF0 < opcode)
  else if (opcode / 4096) = 0x8 then decide (¬((opcode % 16) ≤ 7 ∨ (opcode % 16) = 14))
  else if (opcode / 4096) = 0x9 then decide (0x9FF0 < opcode)
  else if (opcode / 4096) = 0xE then decide (¬((opcode % 256) = 0x9E ∨ (opcode % 256) = 0xA1))
  else if (opcode / 4096) = 0xF then
    decide (¬((opcode % 256) = 0x07 ∨ (opcode % 256) = 0x0A ∨ (opcode % 256) = 0x15 ∨ (opcode % 256) = 0x18 ∨ (opcode % 256) = 0x1E ∨
              (opcode % 256) = 0x29 ∨ (opcode % 256) = 0x33 ∨ (opcode % 256) = 0x55 ∨ (opcode % 256) = 0x65))
  else false
set_option maxHeartbeats 1000000 in
/-- Claim C6 (amended): for every 16-bit instruction word, the decoder
rejects the word (so `emulate_cycle` aborts with the distinguishable
`unimplemented!` invalid-instruction error) exactly when the word lies in
`invalidWordSpec`; words of the `0x5`/`0x9` families with nonzero low
nibble at or below `0x5FF0`/`0x9FF0` are NOT rejected — they execute as the
corresponding register-skip instruction. -/
theorem decode_none_iff (opcode : Nat) (h : opcode < 65536) :
    decode opcode = none ↔ invalidWordSpec opcode = true := by
  by_cases c0 : opcode = 0x0000
  · subst c0; decide
  by_cases c1 : opcode = 0x00E0
  · subst c1; decide
  by_cases c2 : opcode = 0x00EE
  · subst c2; decide
  unfold decode invalidWordSpec
  rw [if_neg c0, if_neg c1, if_neg c2]
  by_cases h0 : opcode < 0x1000
  · rw [if_neg (by omega : ¬(0x1000 ≤ opcode ∧ opcode ≤ 0x1FFF)),
        if_neg (by omega : ¬(0x2000 ≤ opcode ∧ opcode ≤ 0x2FFF)),
        if_neg (by omega : ¬(0x3000 ≤ opcode ∧ opcode ≤ 0x3FFF)),
        if_neg (by omega : ¬(0x4000 ≤ opcode ∧ opcode ≤ 0x4FFF)),
        if_neg (by omega : ¬(0x5000 ≤ opcode ∧ opcode ≤ 0x5FF0)),
        if_neg (by omega : ¬(0x6000 ≤ opcode ∧ opcode ≤ 0x6FFF)),
        if_neg (by omega : ¬(0x7000 ≤ opcode ∧ opcode ≤ 0x7FFF)),
        if_neg (by omega : ¬(0x8000 ≤ opcode ∧ opcode ≤ 0x8FFF)),
        if_neg (by omega : ¬(0x9000 ≤ opcode ∧ opcode ≤ 0x9FF0)),
        if_neg (by omega : ¬(0xA000 ≤ opcode ∧ opcode ≤ 0xAFFF)),
        if_neg (by omega : ¬(0xB000 ≤ opcode ∧ opcode ≤ 0xBFFF)),
        if_neg (by omega : ¬(0xC000 ≤ opcode ∧ opcode ≤ 0xCFFF)),
        if_neg (by omega : ¬(0xD000 ≤ opcode ∧ opcode ≤ 0xDFFF)),
        if_neg (by omega : ¬(0xE000 ≤ opcode ∧ opcode ≤ 0xEFFF)),
        if_neg (by omega : ¬(0xF000 ≤ opcode ∧ opcode ≤ 0xFFFF))]
    rw [if_pos (by omega : opcode / 4096 = 0x0)]
    simp [c0, c1, c2]
  by_cases f1 : 0x1000 ≤ opcode ∧ opcode ≤ 0x1FFF
  · rw [if_pos f1]
    rw [if_neg (by omega : ¬(opcode / 4096 = 0x0)),
        if_neg (by omega : ¬(opcode / 4096 = 0x5)),
        if_neg (by omega : ¬(opcode / 4096 = 0x8)),
        if_neg (by omega : ¬(opcode / 4096 = 0x9)),
        if_neg (by omega : ¬(opcode / 4096 = 0xE)),
        if_neg (by omega : ¬(opcode / 4096 = 0xF))]
    simp
  rw [if_neg f1]
  by_cases f2 : 0x2000 ≤ opcode ∧ opcode ≤ 0x2FFF
  · rw [if_pos f2]
    rw [if_neg (by omega : ¬(opcode / 4096 = 0x0)),
        if_neg (by omega : ¬(opcode / 4096 = 0x5)),
        if_neg (by omega : ¬(opcode / 4096 = 0x8)),
        if_neg (by omega : ¬(opcode / 4096 = 0x9)),
        if_neg (by omega : ¬(opcode / 4096 = 0xE)),
        if_neg (by omega : ¬(opcode / 4096 = 0xF))]
    simp
  rw [if_neg f2]
  by_cases f3 : 0x3000 ≤ opcode ∧ opcode ≤ 0x3FFF
  · rw [if_pos f3]
    rw [if_neg (by omega : ¬(opcode / 4096 = 0x0)),
        if_neg (by omega : ¬(opcode / 4096 = 0x5)),
        if_neg (by omega : ¬(opcode / 4096 = 0x8)),
        if_neg (by omega : ¬(opcode / 4096 = 0x9)),
        if_neg (by omega : ¬(opcode / 4096 = 0xE)),
        if_neg (by omega : ¬(opcode / 4096 = 0xF))]
    simp
  rw [if_neg f3]
  by_cases f4 : 0x4000 ≤ opcode ∧ opcode ≤ 0x4FFF
  · rw [if_pos f4]
    rw [if_neg (by omega : ¬(opcode / 4096 = 0x0)),
        if_neg (by omega : ¬(opcode / 4096 = 0x5)),
        if_neg (by omega : ¬(opcode / 4096 = 0x8)),
        if_neg (by omega : ¬(opcode / 4096 = 0x9)),
        if_neg (by omega : ¬(opcode / 4096 = 0xE)),
        if_neg (by omega : ¬(opcode / 4096 = 0xF))]
    simp
  rw [if_neg f4]
  by_cases f5 : 0x5000 ≤ opcode ∧ opcode ≤ 0x5FF0
  · rw [if_pos f5]
    rw [if_neg (by omega : ¬(opcode / 4096 = 0x0)),
        if_pos (by omega : opcode / 4096 = 0x5)]
    simp only [reduceCtorEq, false_iff, decide_eq_true_eq]
    omega
  rw [if_neg f5]
  by_cases f6 : 0x6000 ≤ opcode ∧ opcode ≤ 0x6FFF
  · rw [if_pos f6]
    rw [if_neg (by omega : ¬(opcode / 4096 = 0x0)),
        if_neg (by omega : ¬(opcode / 4096 = 0x5)),
        if_neg (by omega : ¬(opcode / 4096 = 0x8)),
        if_neg (by omega : ¬(opcode / 4096 = 0x9)),
        if_neg (by omega : ¬(opcode / 4096 = 0xE)),
        if_neg (by omega : ¬(opcode / 4096 = 0xF))]
    simp
  rw [if_neg f6]
  by_cases f7 : 0x7000 ≤ opcode ∧ opcode ≤ 0x7FFF
  · rw [if_pos f7]
    rw [if_neg (by omega : ¬(opcode / 4096 = 0x0)),
        if_neg (by omega : ¬(opcode / 4096 = 0x5)),
        if_neg (by omega : ¬(opcode / 4096 = 0x8)),
        if_neg (by omega : ¬(opcode / 4096 = 0x9)),
        if_neg (by omega : ¬(opcode / 4096 = 0xE)),
        if_neg (by omega : ¬(opcode / 4096 = 0xF))]
    simp
  rw [if_neg f7]
  by_cases f8 : 0x8000 ≤ opcode ∧ opcode ≤ 0x8FFF
  · rw [if_pos f8]
    rw [if_neg (by omega : ¬(opcode / 4096 = 0x0)),
        if_neg (by omega : ¬(opcode / 4096 = 0x5)),
        if_pos (by omega : opcode / 4096 = 0x8)]
    obtain ⟨k, hkeq⟩ : ∃ k, opcode % 16 = k := ⟨_, rfl⟩
    rw [hkeq]
    have hk : k < 16 := by omega
    interval_cases k <;> simp
  rw [if_neg f8]
  by_cases f9 : 0x9000 ≤ opcode ∧ opcode ≤ 0x9FF0
  · rw [if_pos f9]
    rw [if_neg (by omega : ¬(opcode / 4096 = 0x0)),
        if_neg (by omega : ¬(opcode / 4096 = 0x5)),
        if_neg (by omega : ¬(opcode / 4096 = 0x8)),
        if_pos (by omega : opcode / 4096 = 0x9)]
    simp only [reduceCtorEq, false_iff, decide_eq_true_eq]
    omega
  rw [if_neg f9]
  by_cases fA : 0xA000 ≤ opcode ∧ opcode ≤ 0xAFFF
  · rw [if_pos fA]
    rw [if_neg (by omega : ¬(opcode / 4096 = 0x0)),
        if_neg (by omega : ¬(opcode / 4096 = 0x5)),
        if_neg (by omega : ¬(opcode / 4096 = 0x8)),
        if_neg (by omega : ¬(opcode / 4096 = 0x9)),
        if_neg (by omega : ¬(opcode / 4096 = 0xE)),
        if_neg (by omega : ¬(opcode / 4096 = 0xF))]
    simp
  rw [if_neg fA]
  by_cases fB : 0xB000 ≤ opcode ∧ opcode ≤ 0xBFFF
  · rw [if_pos fB]
    rw [if_neg (by omega : ¬(opcode / 4096 = 0x0)),
        if_neg (by omega : ¬(opcode / 4096 = 0x5)),
        if_neg (by omega : ¬(opcode / 4096 = 0x8)),
        if_neg (by omega : ¬(opcode / 4096 = 0x9)),
        if_neg (by omega : ¬(opcode / 4096 = 0xE)),
        if_neg (by omega : ¬(opcode / 4096 = 0xF))]
    simp
  rw [if_neg fB]
  by_cases fC : 0xC000 ≤ opcode ∧ opcode ≤ 0xCFFF
  · rw [if_pos fC]
    rw [if_neg (by omega : ¬(opcode / 4096 = 0x0)),
        if_neg (by omega : ¬(opcode / 4096 = 0x5)),
        if_neg (by omega : ¬(opcode / 4096 = 0x8)),
        if_neg (by omega : ¬(opcode / 4096 = 0x9)),
        if_neg (by omega : ¬(opcode / 4096 = 0xE)),
        if_neg (by omega : ¬(opcode / 4096 = 0xF))]
    simp
  rw [if_neg fC]
  by_cases fD : 0xD000 ≤ opcode ∧ opcode ≤ 0xDFFF
  · rw [if_pos fD]
    rw [if_neg (by omega : ¬(opcode / 4096 = 0x0)),
        if_neg (by omega : ¬(opcode / 4096 = 0x5)),
        if_neg (by omega : ¬(opcode / 4096 = 0x8)),
        if_neg (by omega : ¬(opcode / 4096 = 0x9)),
        if_neg (by omega : ¬(opcode / 4096 = 0xE)),
        if_neg (by omega : ¬(opcode / 4096 = 0xF))]
    simp
  rw [if_neg fD]
  by_cases fE : 0xE000 ≤ opcode ∧ opcode ≤ 0xEFFF
  · rw [if_pos fE]
    rw [if_neg (by omega : ¬(opcode / 4096 = 0x0)),
        if_neg (by omega : ¬(opcode / 4096 = 0x5)),
        if_neg (by omega : ¬(opcode / 4096 = 0x8)),
        if_neg (by omega : ¬(opcode / 4096 = 0x9)),
        if_pos (by omega : opcode / 4096 = 0xE)]
    by_cases e1 : opcode % 256 = 0x9E
    · rw [if_pos e1]; simp [e1]
    rw [if_neg e1]
    by_cases e2 : opcode % 256 = 0xA1
    · rw [if_pos e2]; simp [e2]
    rw [if_neg e2]
    simp [e1, e2]
  rw [if_neg fE]
  by_cases fF : 0xF000 ≤ opcode ∧ opcode ≤ 0xFFFF
  · rw [if_pos fF]
    rw [if_neg (by omega : ¬(opcode / 4096 = 0x0)),
        if_neg (by omega : ¬(opcode / 4096 = 0x5)),
        if_neg (by omega : ¬(opcode / 4096 = 0x8)),
        if_neg (by omega : ¬(opcode / 4096 = 0x9)),
        if_neg (by omega : ¬(opcode / 4096 = 0xE)),
        if_pos (by omega : opcode / 4096 = 0xF)]
    by_cases t0 : opcode % 256 = 0x07
    · rw [if_pos t0]; simp [t0]
    rw [if_neg t0]
    by_cases t1 : opcode % 256 = 0x0A
    · rw [if_pos t1]; simp [t1]
    rw [if_neg t1]
    by_cases t2 : opcode % 256 = 0x15
    · rw [if_pos t2]; simp [t2]
    rw [if_neg t2]
    by_cases t3 : opcode % 256 = 0x18
    · rw [if_pos t3]; simp [t3]
    rw [if_neg t3]
    by_cases t4 : opcode % 256 = 0x1E
    · rw [if_pos t4]; simp [t4]
    rw [if_neg t4]
    by_cases t5 : opcode % 256 = 0x29
    · rw [if_pos t5]; simp [t5]
    rw [if_neg t5]
    by_cases t6 : opcode % 256 = 0x33
    · rw [if_pos t6]; simp [t6]
    rw [if_neg t6]
    by_cases t7 : opcode % 256 = 0x55
    · rw [if_pos t7]; simp [t7]
    rw [if_neg t7]
    by_cases t8 : opcode % 256 = 0x65
    · rw [if_pos t8]; simp [t8]
    rw [if_neg t8]
    simp [t0, t1, t2, t3, t4, t5, t6, t7, t8]
  rw [if_neg fF]
  by_cases g5 : opcode / 4096 = 5
  · rw [if_neg (by omega : ¬(opcode / 4096 = 0x0)), if_pos g5]
    simp only [decide_eq_true_eq, true_iff, iff_true]
    omega
  · rw [if_neg (by omega : ¬(opcode / 4096 = 0x0)), if_neg g5,
        if_neg (by omega : ¬(opcode / 4096 = 0x8)), if_pos (by omega : opcode / 4096 = 0x9)]
    simp only [decide_eq_true_eq, true_iff, iff_true]
    omega

/-- Claim C6 witness: the amended theorem at the concrete invalid word
`0x8018` (an `0x8`-family word with unrecognized low nibble 8). -/
theorem decode_none_iff_witness :
    decode 0x8018 = none ↔ invalidWordSpec 0x8018 = true :=
  decode_none_iff 0x8018 (by decide)

/-- When the fetched word decodes to an instruction other than the halt
word, `emulate_cycle` is the instruction's effect on the state with the
program counter already advanced by 2. -/
theorem emulate_cycle_decodes (s : CHIP8) (ins : Instr)
    (h2 : s.position_in_memory + 1 < 4096)
    (hdec : decode (s.memory s.position_in_memory <<< 8 |||
                    s.memory (s.position_in_memory + 1)) = some ins)
    (hfin : ins ≠ .finish) :
    emulate_cycle s =
      (execute { s with position_in_memory := s.position_in_memory + 2 } ins).map
        (fun t => (t, false)) := by
  unfold emulate_cycle
  rw [if_pos (by omega : s.position_in_memory < 4096), if_pos h2, hdec]
  cases ins <;> first | (exact absurd rfl hfin) | rfl

/-- A word of the `0x2` family decodes to the call instruction with the
low 12 bits as target. -/
theorem decode_callOp (A : Nat) (hA : A < 4096) :
    decode (0x2000 + A) = some (Instr.callOp A) := by
  unfold decode
  rw [if_neg (by omega : ¬(0x2000 + A = 0x0000)),
      if_neg (by omega : ¬(0x2000 + A = 0x00E0)),
      if_neg (by omega : ¬(0x2000 + A = 0x00EE)),
      if_neg (by omega : ¬(0x1000 ≤ 0x2000 + A ∧ 0x2000 + A ≤ 0x1FFF)),
      if_pos (by omega : 0x2000 ≤ 0x2000 + A ∧ 0x2000 + A ≤ 0x2FFF)]
  have hmod : (0x2000 + A) % 4096 = A := by omega
  rw [hmod]

/-- Claim C8: from any state whose call stack is not full, fetching a call
to address `A` at program-counter value `B` pushes `B + 2`, jumps to `A`,
and the return instruction fetched at `A` pops the stack and resumes
execution at `B + 2` — the instruction after the call — with the stack
depth restored to its pre-call value. -/
theorem call_ret_roundtrip (s : CHIP8) (A : Nat)
    (hsp : s.stack_pointer < 16)
    (hpc : s.position_in_memory + 1 < 4096)
    (hA : A + 1 < 4096)
    (hcall : s.memory s.position_in_memory <<< 8 |||
             s.memory (s.position_in_memory + 1) = 0x2000 + A)
    (hret : s.memory A <<< 8 ||| s.memory (A + 1) = 0x00EE) :
    ∃ s1 s2,
      emulate_cycle s = .ok (s1, false) ∧
      s1.position_in_memory = A ∧
      s1.stack_pointer = s.stack_pointer + 1 ∧
      emulate_cycle s1 = .ok (s2, false) ∧
      s2.position_in_memory = s.position_in_memory + 2 ∧
      s2.stack_pointer = s.stack_pointer := by
  have hwrap : (s.position_in_memory + 2) % 65536 = s.position_in_memory + 2 := by omega
  refine ⟨{ s with position_in_memory := A,
                   stack := Function.update s.stack s.stack_pointer
                              (s.position_in_memory + 2),
                   stack_pointer := s.stack_pointer + 1 },
          { s with position_in_memory := s.position_in_memory + 2,
                   stack := Function.update s.stack s.stack_pointer
                              (s.position_in_memory + 2),
                   stack_pointer := s.stack_pointer },
          ?_, rfl, rfl, ?_, rfl, rfl⟩
  · rw [emulate_cycle_decodes s (.callOp A) hpc
          (by rw [hcall]; exact decode_callOp A (by omega))
          (by intro hcon; exact Instr.noConfusion hcon)]
    show (call _ A).map _ = _
    unfold call
    dsimp only
    rw [if_neg (by omega : ¬(s.stack_pointer > 16)), if_pos hsp]
    dsimp only [Except.map]
    rw [hwrap]
  · rw [emulate_cycle_decodes _ .retOp
          (by show A + 1 < 4096; omega)
          (by show decode (s.memory A <<< 8 ||| s.memory (A + 1)) = some Instr.retOp
              rw [hret]; decide)
          (by intro hcon; exact Instr.noConfusion hcon)]
    show (ret _).map _ = _
    unfold ret
    dsimp only
    rw [if_neg (by omega : ¬(s.stack_pointer + 1 = 0))]
    dsimp only [Except.map]
    rw [Nat.add_sub_cancel, Function.update_same]

/-- A state holding the two-instruction program `CALL 0x208` at the load
origin `0x200` and `RETURN` at `0x208`. -/
def exC8 : CHIP8 :=
  { zeroState with memory := fun a =>
      if a = 0x200 then 0x22 else if a = 0x201 then 0x08
      else if a = 0x208 then 0x00 else if a = 0x209 then 0xEE else 0 }

/-- Claim C8 witness: the round-trip theorem at the concrete program with a
call from `0x200` to `0x208` and a return there. -/
theorem call_ret_roundtrip_witness :
    exC8.stack_pointer < 16 ∧
    ∃ s1 s2,
      emulate_cycle exC8 = .ok (s1, false) ∧
      s1.position_in_memory = 0x208 ∧
      s1.stack_pointer = exC8.stack_pointer + 1 ∧
      emulate_cycle s1 = .ok (s2, false) ∧
      s2.position_in_memory = exC8.position_in_memory + 2 ∧
      s2.stack_pointer = exC8.stack_pointer :=
  ⟨by decide,
   call_ret_roundtrip exC8 0x208 (by decide) (by decide) (by decide)
     (by decide) (by decide)⟩

/-- Two distinct sprite columns land on distinct wrapped screen columns. -/
theorem wrap64_inj (vx a b : Nat) (ha : a < 8) (hb : b < 8) (hne : a ≠ b) :
    (vx + a) % 256 % 64 ≠ (vx + b) % 256 % 64 := by
  rw [Nat.mod_mod_of_dvd _ (by norm_num : (64 : Nat) ∣ 256),
      Nat.mod_mod_of_dvd _ (by norm_num : (64 : Nat) ∣ 256)]
  omega

/-- Two distinct sprite rows (of a sprite at most 16 rows tall) land on
distinct wrapped screen rows. -/
theorem wrap32_inj (vy a b : Nat) (ha : a ≤ 15) (hb : b ≤ 15) (hne : a ≠ b) :
    (vy + a) % 256 % 32 ≠ (vy + b) % 256 % 32 := by
  rw [Nat.mod_mod_of_dvd _ (by norm_num : (32 : Nat) ∣ 256),
      Nat.mod_mod_of_dvd _ (by norm_num : (32 : Nat) ∣ 256)]
  omega

/-- One column step of the blit: it keeps the index register and the
register file, touches memory only at the collision byte 15, touches the
display only at the wrapped target pixel, and XORs that pixel with the
sprite bit. -/
theorem draw_col_step_spec (vx row sy : Nat) (st : CHIP8) (c : Nat) :
    (draw_col_step vx row sy st c).i = st.i ∧
    (draw_col_step vx row sy st c).registers = st.registers ∧
    (∀ a, a ≠ 15 → (draw_col_step vx row sy st c).memory a = st.memory a) ∧
    (∀ p q, ¬(p = sy ∧ q = (vx + c) % 256 % 64) →
        (draw_col_step vx row sy st c).display p q = st.display p q) ∧
    (draw_col_step vx row sy st c).display sy ((vx + c) % 256 % 64)
      = xor (st.display sy ((vx + c) % 256 % 64)) (spriteBit row c) := by
  unfold draw_col_step
  dsimp only
  split
  · refine ⟨rfl, rfl, ?_, ?_, ?_⟩
    · intro a ha
      exact Function.update_noteq ha _ _
    · intro p q hpq
      exact if_neg hpq
    · exact if_pos ⟨rfl, rfl⟩
  · refine ⟨rfl, rfl, fun a _ => rfl, ?_, ?_⟩
    · intro p q hpq
      exact if_neg hpq
    · exact if_pos ⟨rfl, rfl⟩

/-- The column loop of the blit over the first `c ≤ 8` columns: registers
and index register unchanged, memory changed at most at byte 15, display
changed exactly at the wrapped targets of columns below `c`, each XORed
once with its sprite bit. -/
theorem draw_cols_spec (vx row sy : Nat) (st : CHIP8) :
    ∀ c, c ≤ 8 →
      (draw_cols vx row sy st c).i = st.i ∧
      (draw_cols vx row sy st c).registers = st.registers ∧
      (∀ a, a ≠ 15 → (draw_cols vx row sy st c).memory a = st.memory a) ∧
      (∀ p q, (∀ c2, c2 < c → ¬(p = sy ∧ q = (vx + c2) % 256 % 64)) →
          (draw_cols vx row sy st c).display p q = st.display p q) ∧
      (∀ c2, c2 < c →
          (draw_cols vx row sy st c).display sy ((vx + c2) % 256 % 64)
            = xor (st.display sy ((vx + c2) % 256 % 64)) (spriteBit row c2)) := by
  intro c
  induction c with
  | zero =>
      intro _
      exact ⟨rfl, rfl, fun a _ => rfl, fun p q _ => rfl, fun c2 hc2 => absurd hc2 (by omega)⟩
  | succ c ih =>
      intro hc
      obtain ⟨ihi, ihr, ihm, ihfr, ihhit⟩ := ih (by omega)
      obtain ⟨si, sr, sm, sfr, shit⟩ :=
        draw_col_step_spec vx row sy (draw_cols vx row sy st c) c
      rw [show draw_cols vx row sy st (c + 1)
            = draw_col_step vx row sy (draw_cols vx row sy st c) c from rfl]
      refine ⟨by rw [si, ihi], by rw [sr, ihr], ?_, ?_, ?_⟩
      · intro a ha
        rw [sm a ha, ihm a ha]
      · intro p q hpq
        rw [sfr p q (hpq c (by omega)), ihfr p q (fun c2 hc2 => hpq c2 (by omega))]
      · intro c2 hc2
        by_cases hc2c : c2 = c
        · rw [hc2c]
          have hfr2 : (draw_cols vx row sy st c).display sy ((vx + c) % 256 % 64)
              = st.display sy ((vx + c) % 256 % 64) := by
            apply ihfr
            intro c3 hc3 hcon
            exact wrap64_inj vx c c3 (by omega) (by omega) (by omega) hcon.2
          rw [shit, hfr2]
        · have hlt : c2 < c := by omega
          rw [sfr sy ((vx + c2) % 256 % 64), ihhit c2 hlt]
          intro hcon
          exact wrap64_inj vx c2 c (by omega) (by omega) hc2c hcon.2

/-- The row loop of the blit over `n ≤ 16` rows of a sprite lying inside
memory above the collision byte: the loop succeeds, keeps registers and the
index register, changes memory at most at byte 15, and changes the display
exactly at the wrapped targets of the sprite cells, each XORed once with
its bit from the ORIGINAL sprite bytes. -/
theorem draw_rows_spec (vx vy : Nat) (s0 : CHIP8) :
    ∀ n, n ≤ 16 → 15 < s0.i → s0.i + n ≤ 4096 →
      ∃ st, draw_rows vx vy s0 n = .ok st ∧
        st.i = s0.i ∧
        st.registers = s0.registers ∧
        (∀ a, a ≠ 15 → st.memory a = s0.memory a) ∧
        (∀ p q, (∀ r c, r < n → c < 8 →
            ¬(p = (vy + r) % 256 % 32 ∧ q = (vx + c) % 256 % 64)) →
            st.display p q = s0.display p q) ∧
        (∀ r c, r < n → c < 8 →
            st.display ((vy + r) % 256 % 32) ((vx + c) % 256 % 64)
              = xor (s0.display ((vy + r) % 256 % 32) ((vx + c) % 256 % 64))
                    (spriteBit (s0.memory (s0.i + r)) c)) := by
  intro n
  induction n with
  | zero =>
      intro _ _ _
      exact ⟨s0, rfl, rfl, rfl, fun a _ => rfl, fun p q _ => rfl,
             fun r c hr _ => absurd hr (by omega)⟩
  | succ n ih =>
      intro hn hi hb
      obtain ⟨st, hst, sti, str, stm, stfr, sthit⟩ := ih (by omega) hi (by omega)
      have hidx : (st.i + n) % 65536 = s0.i + n := by rw [sti]; omega
      have hrowmem : st.memory ((st.i + n) % 65536) = s0.memory (s0.i + n) := by
        rw [hidx]
        exact stm _ (by omega)
      obtain ⟨ci, cr, cm, cfr, chit⟩ :=
        draw_cols_spec vx (st.memory ((st.i + n) % 65536)) ((vy + n) % 256 % 32) st 8
          (by omega)
      have hstep : draw_rows vx vy s0 (n + 1)
          = .ok (draw_cols vx (st.memory ((st.i + n) % 65536)) ((vy + n) % 256 % 32) st 8) := by
        show (draw_rows vx vy s0 n).bind (fun st2 => draw_row_step vx vy st2 n) = _
        rw [hst]
        show draw_row_step vx vy st n = _
        unfold draw_row_step
        rw [if_pos (by rw [hidx]; omega)]
      refine ⟨_, hstep, by rw [ci, sti], by rw [cr, str], ?_, ?_, ?_⟩
      · intro a ha
        rw [cm a ha, stm a ha]
      · intro p q hpq
        have h1 : (draw_cols vx (st.memory ((st.i + n) % 65536)) ((vy + n) % 256 % 32)
              st 8).display p q = st.display p q := by
          apply cfr
          intro c2 hc2
          exact hpq n c2 (by omega) hc2
        have h2 : st.display p q = s0.display p q := by
          apply stfr
          intro r c hr hc
          exact hpq r c (by omega) hc
        rw [h1, h2]
      · intro r c hr hc
        by_cases hrn : r = n
        · rw [hrn]
          rw [chit c hc, hrowmem]
          have h2 : st.display ((vy + n) % 256 % 32) ((vx + c) % 256 % 64)
              = s0.display ((vy + n) % 256 % 32) ((vx + c) % 256 % 64) := by
            apply stfr
            intro r2 c2 hr2 hc2 hcon
            exact wrap32_inj vy n r2 (by omega) (by omega) (by omega) hcon.1
          rw [h2]
        · have hr' : r < n := by omega
          have h1 : (draw_cols vx (st.memory ((st.i + n) % 65536)) ((vy + n) % 256 % 32)
                st 8).display ((vy + r) % 256 % 32) ((vx + c) % 256 % 64)
              = st.display ((vy + r) % 256 % 32) ((vx + c) % 256 % 64) := by
            apply cfr
            intro c2 hc2 hcon
            exact wrap32_inj vy r n (by omega) (by omega) hrn hcon.1
          rw [h1, sthit r c hr' hc]

/-- Claim C4: for every pair of coordinate registers and sprite height `n`
(a nibble), with the sprite bytes lying in memory above the collision byte,
the draw operation succeeds and XORs exactly the pixels
`((Vy + r) mod 32, (Vx + c) mod 64)` with the sprite bit at row `r`,
column `c` — both axes wrap (the `u8` sums wrap at 256 and 32/64 divide
256, so the composite is exactly mod 32 / mod 64) and nothing is clipped;
every pixel not of that form is unchanged. -/
theorem draw_targets_wrapped_pixels (s : CHIP8) (x y n : Nat)
    (hn : n ≤ 15) (hi15 : 15 < s.i) (hbound : s.i + n ≤ 4096) :
    ∃ s2, draw s x y n = .ok s2 ∧
      (∀ r c, r < n → c < 8 →
        s2.display ((s.registers y + r) % 32) ((s.registers x + c) % 64)
          = xor (s.display ((s.registers y + r) % 32) ((s.registers x + c) % 64))
                (spriteBit (s.memory (s.i + r)) c)) ∧
      (∀ p q, (∀ r c, r < n → c < 8 →
          ¬(p = (s.registers y + r) % 32 ∧ q = (s.registers x + c) % 64)) →
        s2.display p q = s.display p q) := by
  have e32 : ∀ a : Nat, a % 256 % 32 = a % 32 :=
    fun a => Nat.mod_mod_of_dvd a (by norm_num)
  have e64 : ∀ a : Nat, a % 256 % 64 = a % 64 :=
    fun a => Nat.mod_mod_of_dvd a (by norm_num)
  obtain ⟨st, hst, sti, str, stm, stfr, sthit⟩ :=
    draw_rows_spec (s.registers x) (s.registers y)
      { s with memory := Function.update s.memory VF 0 } n (by omega) hi15 hbound
  refine ⟨{ st with draw_flag := true }, ?_, ?_, ?_⟩
  · show (draw_rows (s.registers x) (s.registers y)
        { s with memory := Function.update s.memory VF 0 } n).map _ = _
    rw [hst]
    rfl
  · intro r c hr hc
    have h := sthit r c hr hc
    dsimp only at h
    simp only [e32, e64, VF] at h
    rw [Function.update_noteq (by omega : s.i + r ≠ 15)] at h
    exact h
  · intro p q hpq
    show st.display p q = s.display p q
    have h := stfr p q ?_
    · exact h
    · intro r c hr hc
      simp only [e32, e64]
      exact hpq r c hr hc

/-- A state with Vx = 63, Vy = 31 and a one-byte all-ones sprite at
`I = 0x200`. -/
def exC4 : CHIP8 :=
  { zeroState with
      registers := fun k => if k = 0 then 63 else if k = 1 then 31 else 0,
      i := 0x200,
      memory := fun a => if a = 0x200 then 0xFF else 0 }

/-- Claim C4 witness: the draw theorem at the concrete state drawing a
1-byte sprite at x = 63, y = 31, where the touched pixels are exactly
columns (63 + c) mod 64 ∈ {63, 0, 1, ..., 6} of row 31. -/
theorem draw_targets_wrapped_pixels_witness :
    (1 : Nat) ≤ 15 ∧ 15 < exC4.i ∧ exC4.i + 1 ≤ 4096 ∧
    ∃ s2, draw exC4 0 1 1 = .ok s2 ∧
      (∀ r c, r < 1 → c < 8 →
        s2.display ((exC4.registers 1 + r) % 32) ((exC4.registers 0 + c) % 64)
          = xor (exC4.display ((exC4.registers 1 + r) % 32) ((exC4.registers 0 + c) % 64))
                (spriteBit (exC4.memory (exC4.i + r)) c)) ∧
      (∀ p q, (∀ r c, r < 1 → c < 8 →
          ¬(p = (exC4.registers 1 + r) % 32 ∧ q = (exC4.registers 0 + c) % 64)) →
        s2.display p q = exC4.display p q) :=
  ⟨by decide, by decide, by decide,
   draw_targets_wrapped_pixels exC4 0 1 1 (by decide) (by decide) (by decide)⟩
